import Mathlib

/-
Verification development for the obsidian-yt-video-summarizer repository.

Strings are modelled as `List Char`.  The regular expressions of
`src/constants.ts` are embedded as deterministic scanning functions with
JavaScript `String.match` semantics: the matcher is tried at every start
position from the left, and the first position at which the whole pattern
matches yields the (first) capture group.  Greedy / lazy quantifiers are
realised by maximal-munch respectively minimal-munch scanners; for every
pattern embedded here the character following the quantified class can
never begin an additional unit of the class, so the deterministic scanner
coincides with the backtracking semantics of the JavaScript engine.

The YouTube service (`src/services/youtube.ts`) is not part of the visible
sources; the functions of that file (`extractVideoId`, the metadata
extractors, `fetchTranscript`, the transcript assembler) are modelled from
the spec, each marked `Modelled from the spec:` in its doc comment.  The
plugin class of `src/main.ts` is embedded directly from the source.
-/

set_option maxRecDepth 16000
set_option maxHeartbeats 1600000

namespace YtSummarizer

/-- Character class `[a-zA-Z0-9_-]` of `VIDEO_ID_REGEX` (src/constants.ts:5). -/
def isIdChar (c : Char) : Bool := c.isAlpha || c.isDigit || c = '_' || c = '-'

/-- Character class `[a-zA-Z0-9_.-]` of `CHANNEL_HANDLE_REGEX` (src/constants.ts:37). -/
def isHandleChar (c : Char) : Bool := c.isAlpha || c.isDigit || c = '_' || c = '.' || c = '-'

/-- ASCII whitespace recognised by the `\s` class of the embedded regexes. -/
def isWsChar (c : Char) : Bool :=
  c = ' ' || c = '\t' || c = '\n' || c = '\r' || c = '\x0b' || c = '\x0c'

/-- Match a literal character sequence at the head of the input, returning the
remainder on success. -/
def stripLit : List Char → List Char → Option (List Char)
  | [], s => some s
  | _ :: _, [] => none
  | c :: cs, d :: ds => if d = c then stripLit cs ds else none

/-- Match exactly `n` characters of class `p` (the `{n}` quantifier),
returning the matched characters. -/
def takeExact : Nat → (Char → Bool) → List Char → Option (List Char)
  | 0, _, _ => some []
  | _ + 1, _, [] => none
  | n + 1, p, c :: cs => if p c then (takeExact n p cs).map (fun r => c :: r) else none

/-- Maximal munch of a character class (the greedy `*` / `+` quantifier over a
class): returns the matched characters and the remainder. -/
def grabClass (p : Char → Bool) : List Char → List Char × List Char
  | [] => ([], [])
  | c :: rest =>
    if p c then
      let q := grabClass p rest
      (c :: q.1, q.2)
    else ([], c :: rest)

/-- Leftmost-match scan: try the matcher at every start position from the
left and return the first success, as JavaScript `String.match` does for an
unanchored pattern. -/
def scanLeft {α : Type} (m : List Char → Option α) : List Char → Option α
  | [] => none
  | c :: cs =>
    match m (c :: cs) with
    | some r => some r
    | none => scanLeft m cs

/-- Greedy unit munch for the capture group `(?:[^"\\]|\\"|\\\\)+` of
`TITLE_REGEX` / `AUTHOR_REGEX` (src/constants.ts:2,8): a unit is a
non-quote non-backslash character, an escaped quote or an escaped
backslash.  Returns the matched units and the remainder.  No unit begins
with `"`, so when the character after the munch is not the closing quote no
shorter group match can succeed either, and maximal munch is faithful. -/
def grabUnits : List Char → List Char × List Char
  | [] => ([], [])
  | c :: rest =>
    if c = '\\' then
      match rest with
      | [] => ([], [c])
      | d :: rest2 =>
        if d = '"' || d = '\\' then
          let q := grabUnits rest2
          (c :: d :: q.1, q.2)
        else ([], c :: d :: rest2)
    else if c = '"' then ([], c :: rest)
    else
      let q := grabUnits rest
      (c :: q.1, q.2)

/-- Minimal munch for the lazy body `[\s\S]+?` of the `ytInitialData`
patterns 1–3 (src/constants.ts:14,17,18): collect characters until a `}`
immediately followed by `;` is reached with at least one character
collected; the `}` is left for the caller, the input after the `;` is
returned as remainder. -/
def lazyBodySemi : List Char → List Char → Option (List Char × List Char)
  | _, [] => none
  | acc, c :: rest =>
    if c = '\x7d' ∧ rest.head? = some ';' ∧ acc ≠ [] then
      some (acc.reverse, rest.tail)
    else lazyBodySemi (c :: acc) rest

/-- Minimal munch for the lazy body `[\s\S]+?` of `ytInitialData` pattern 4
(src/constants.ts:19): collect characters until a `}` is reached with at
least one character collected. -/
def lazyBodyBrace : List Char → List Char → Option (List Char × List Char)
  | _, [] => none
  | acc, c :: rest =>
    if c = '\x7d' ∧ acc ≠ [] then
      some (acc.reverse, rest)
    else lazyBodyBrace (c :: acc) rest

/-- Unescape the JSON string escapes `\"` and `\\`, each resolved exactly
once in a single left-to-right pass.  Modelled from the spec: the string
fields surfaced by the Metadata Extractor "must be unescaped before being
surfaced" (the unescaping code lives in the YouTube service, which is not
among the visible sources). -/
def unescapeJson : List Char → List Char
  | [] => []
  | c :: rest =>
    if c = '\\' then
      match rest with
      | [] => [c]
      | d :: rest2 =>
        if d = '"' || d = '\\' then d :: unescapeJson rest2
        else c :: unescapeJson (d :: rest2)
    else c :: unescapeJson rest

/-- Escape a raw text into the JSON-field form, the inverse direction used
to state the title round-trip property: `"` becomes `\"` and `\` becomes
`\\`. -/
def escapeJson : List Char → List Char
  | [] => []
  | c :: rest =>
    if c = '"' then '\\' :: '"' :: escapeJson rest
    else if c = '\\' then '\\' :: '\\' :: escapeJson rest
    else c :: escapeJson rest

/-- Trim leading and trailing whitespace. -/
def trimWs (s : List Char) : List Char :=
  ((s.dropWhile isWsChar).reverse.dropWhile isWsChar).reverse

/-- Matcher for `VIDEO_ID_REGEX = /(?:v=|\/|shorts\/)([a-zA-Z0-9_-]{11})/`
(src/constants.ts:5) at one start position.  The three alternatives begin
with the distinct characters `v`, `/`, `s`, so no cross-alternative
backtracking can occur. -/
def matchIdAt (s : List Char) : Option (List Char) :=
  match stripLit ('v' :: '=' :: []) s with
  | some rest => takeExact 11 isIdChar rest
  | none =>
    match stripLit ('/' :: []) s with
    | some rest => takeExact 11 isIdChar rest
    | none =>
      match stripLit ('s' :: 'h' :: 'o' :: 'r' :: 't' :: 's' :: '/' :: []) s with
      | some rest => takeExact 11 isIdChar rest
      | none => none

/-- Modelled from the spec: `extractVideoId` of the YouTube service
"matches `v=`, any path segment, or `shorts/` followed by exactly 11 id
characters; returns the first capture group", using `VIDEO_ID_REGEX` from
src/constants.ts:5; `none` models the `InvalidUrl` failure. -/
def extractVideoId (s : List Char) : Option (List Char) := scanLeft matchIdAt s

/-- Matcher for a JSON string field regex `/"key":"((?:[^"\\]|\\"|\\\\)+)"/`
at one start position, parameterised by the key; instantiated with
`TITLE_REGEX` (src/constants.ts:2) and `AUTHOR_REGEX` (src/constants.ts:8). -/
def matchJsonFieldAt (key : List Char) (s : List Char) : Option (List Char) :=
  match stripLit ('"' :: key ++ '"' :: ':' :: '"' :: []) s with
  | none => none
  | some rest =>
    let q := grabUnits rest
    if q.1 ≠ [] ∧ q.2.head? = some '"' then some q.1 else none

/-- Raw capture of `TITLE_REGEX` (src/constants.ts:2) on a page. -/
def titleCapture (html : List Char) : Option (List Char) :=
  scanLeft (matchJsonFieldAt ('t' :: 'i' :: 't' :: 'l' :: 'e' :: [])) html

/-- Raw capture of `AUTHOR_REGEX` (src/constants.ts:8) on a page. -/
def authorCapture (html : List Char) : Option (List Char) :=
  scanLeft (matchJsonFieldAt ('a' :: 'u' :: 't' :: 'h' :: 'o' :: 'r' :: [])) html

/-- Matcher for `CHANNEL_ID_REGEX = /"channelId":"([^"]+)"/`
(src/constants.ts:11) at one start position. -/
def matchChannelIdAt (s : List Char) : Option (List Char) :=
  match stripLit ("\"channelId\":\"".data) s with
  | none => none
  | some rest =>
    let q := grabClass (fun c => c ≠ '"') rest
    if q.1 ≠ [] ∧ q.2.head? = some '"' then some q.1 else none

/-- Raw capture of `CHANNEL_ID_REGEX` on a page. -/
def channelIdCapture (html : List Char) : Option (List Char) :=
  scanLeft matchChannelIdAt html

/-- Matcher for `PUBLISH_DATE_REGEX = /<meta itemprop="datePublished"
content="([^"]+)"/` (src/constants.ts:32) at one start position; note the
pattern uses literal single spaces, not `\s+`. -/
def matchPublishDateAt (s : List Char) : Option (List Char) :=
  match stripLit ("<meta itemprop=\"datePublished\" content=\"".data) s with
  | none => none
  | some rest =>
    let q := grabClass (fun c => c ≠ '"') rest
    if q.1 ≠ [] ∧ q.2.head? = some '"' then some q.1 else none

/-- Raw capture of `PUBLISH_DATE_REGEX` on a page. -/
def publishDateCapture (html : List Char) : Option (List Char) :=
  scanLeft matchPublishDateAt html

/-- Matcher for `CHANNEL_HANDLE_REGEX =
/<link\s+itemprop="url"\s+href="https?:\/\/www\.youtube\.com\/@([a-zA-Z0-9_.-]+)"/`
(src/constants.ts:37) at one start position.  `\s+` is greedy over the
whitespace class, whose complement begins the following literal, and the
optional `s` of `https?` is resolved by the next character (`s` versus
`:`), so the deterministic reading is faithful. -/
def matchHandleAt (s : List Char) : Option (List Char) :=
  match stripLit ("<link".data) s with
  | none => none
  | some r1 =>
    let w1 := grabClass isWsChar r1
    if w1.1 = [] then none else
    match stripLit ("itemprop=\"url\"".data) w1.2 with
    | none => none
    | some r2 =>
      let w2 := grabClass isWsChar r2
      if w2.1 = [] then none else
      match stripLit ("href=\"http".data) w2.2 with
      | none => none
      | some r3 =>
        let r4 := match r3 with
          | 's' :: rest => rest
          | rest => rest
        match stripLit ("://www.youtube.com/@".data) r4 with
        | none => none
        | some r5 =>
          let q := grabClass isHandleChar r5
          if q.1 ≠ [] ∧ q.2.head? = some '"' then some q.1 else none

/-- Raw capture of `CHANNEL_HANDLE_REGEX` on a page; the spec surfaces the
captured handle unchanged (it contains no JSON escapes by construction of
its character class). -/
def extractChannelHandle (html : List Char) : Option (List Char) :=
  scanLeft matchHandleAt html

/-- Matcher for `TITLE_META_REGEX =
/<meta\s+(?:name="title"|itemprop="name")\s+content="([^"]*)">/`
(src/constants.ts:26) at one start position.  The capture class `[^"]*` may
be empty. -/
def matchTitleMetaAt (s : List Char) : Option (List Char) :=
  match stripLit ("<meta".data) s with
  | none => none
  | some r1 =>
    let w1 := grabClass isWsChar r1
    if w1.1 = [] then none else
    let r2opt :=
      match stripLit ("name=\"title\"".data) w1.2 with
      | some r => some r
      | none => stripLit ("itemprop=\"name\"".data) w1.2
    match r2opt with
    | none => none
    | some r2 =>
      let w2 := grabClass isWsChar r2
      if w2.1 = [] then none else
      match stripLit ("content=\"".data) w2.2 with
      | none => none
      | some r3 =>
        let q := grabClass (fun c => c ≠ '"') r3
        match stripLit ("\">".data) q.2 with
        | none => none
        | some _ => some q.1

/-- Raw capture of `TITLE_META_REGEX` on a page. -/
def titleMetaCapture (html : List Char) : Option (List Char) :=
  scanLeft matchTitleMetaAt html

/-- Shape of a parsed JSON value; numbers keep their raw lexeme so no
floating-point semantics is needed. -/
inductive Json where
  | null : Json
  | boolean : Bool → Json
  | number : List Char → Json
  | str : List Char → Json
  | arr : List Json → Json
  | obj : List (List Char × Json) → Json

/-- Whitespace accepted between JSON tokens. -/
def isJsonWsChar (c : Char) : Bool := c = ' ' || c = '\n' || c = '\r' || c = '\t'

/-- Skip JSON inter-token whitespace. -/
def skipJsonWs (s : List Char) : List Char := s.dropWhile isJsonWsChar

/-- Hexadecimal digit test for `\uXXXX` escapes. -/
def isHexChar (c : Char) : Bool :=
  c.isDigit || ('a' ≤ c && c ≤ 'f') || ('A' ≤ c && c ≤ 'F')

/-- Value of a hexadecimal digit. -/
def hexVal (c : Char) : Nat :=
  if c.isDigit then c.toNat - 48
  else if 'a' ≤ c && c ≤ 'f' then c.toNat - 87
  else c.toNat - 55

/-- Decoded character of a single-character JSON escape. -/
def escChar (d : Char) : Option Char :=
  if d = '"' then some '"'
  else if d = '\\' then some '\\'
  else if d = '/' then some '/'
  else if d = 'b' then some '\x08'
  else if d = 'f' then some '\x0c'
  else if d = 'n' then some '\n'
  else if d = 'r' then some '\r'
  else if d = 't' then some '\t'
  else none

/-- Parse the body of a JSON string after its opening quote, returning the
decoded characters and the input after the closing quote. -/
def parseStrBody : List Char → Option (List Char × List Char)
  | [] => none
  | c :: rest =>
    if c = '"' then some ([], rest)
    else if c = '\\' then
      match rest with
      | [] => none
      | d :: rest2 =>
        if d = 'u' then
          match rest2 with
          | h1 :: h2 :: h3 :: h4 :: rest3 =>
            if isHexChar h1 && isHexChar h2 && isHexChar h3 && isHexChar h4 then
              (parseStrBody rest3).map
                (fun q =>
                  (Char.ofNat (((hexVal h1 * 16 + hexVal h2) * 16 + hexVal h3) * 16 + hexVal h4)
                    :: q.1, q.2))
            else none
          | _ => none
        else
          match escChar d with
          | some e => (parseStrBody rest2).map (fun q => (e :: q.1, q.2))
          | none => none
    else if c.toNat < 32 then none
    else (parseStrBody rest).map (fun q => (c :: q.1, q.2))

/-- Parse the optional fraction part of a JSON number, returning its lexeme. -/
def parseFrac (s : List Char) : Option (List Char × List Char) :=
  match s with
  | '.' :: r =>
    let q := grabClass Char.isDigit r
    if q.1 = [] then none else some ('.' :: q.1, q.2)
  | _ => some ([], s)

/-- Parse the optional exponent part of a JSON number, returning its lexeme. -/
def parseExp (s : List Char) : Option (List Char × List Char) :=
  match s with
  | [] => some ([], [])
  | c :: r =>
    if c = 'e' || c = 'E' then
      let p := match r with
        | '+' :: rr => (('+' :: []), rr)
        | '-' :: rr => (('-' :: []), rr)
        | rr => (([] : List Char), rr)
      let q := grabClass Char.isDigit p.2
      if q.1 = [] then none else some (c :: p.1 ++ q.1, q.2)
    else some ([], c :: r)

/-- Parse a complete JSON number, returning its raw lexeme. -/
def parseNum (s : List Char) : Option (List Char × List Char) :=
  let p := match s with
    | '-' :: r => (('-' :: []), r)
    | r => (([] : List Char), r)
  match p.2 with
  | [] => none
  | c :: r =>
    if c = '0' ∨ c.isDigit = false then
      if c = '0' then
        match parseFrac r with
        | none => none
        | some f =>
          match parseExp f.2 with
          | none => none
          | some e => some (p.1 ++ '0' :: f.1 ++ e.1, e.2)
      else none
    else
      let q := grabClass Char.isDigit r
      match parseFrac q.2 with
      | none => none
      | some f =>
        match parseExp f.2 with
        | none => none
        | some e => some (p.1 ++ c :: q.1 ++ f.1 ++ e.1, e.2)

mutual

/-- Parse one JSON value (fuel-bounded recursive descent). -/
def parseVal : Nat → List Char → Option (Json × List Char)
  | 0, _ => none
  | fuel + 1, s =>
    match skipJsonWs s with
    | [] => none
    | c :: rest =>
      if c = 'n' then
        match stripLit ('u' :: 'l' :: 'l' :: []) rest with
        | some r => some (Json.null, r)
        | none => none
      else if c = 't' then
        match stripLit ('r' :: 'u' :: 'e' :: []) rest with
        | some r => some (Json.boolean true, r)
        | none => none
      else if c = 'f' then
        match stripLit ('a' :: 'l' :: 's' :: 'e' :: []) rest with
        | some r => some (Json.boolean false, r)
        | none => none
      else if c = '"' then
        (parseStrBody rest).map (fun q => (Json.str q.1, q.2))
      else if c = '\x7b' then parseObjBody fuel rest
      else if c = '[' then parseArrBody fuel rest
      else if c = '-' || c.isDigit then
        (parseNum (c :: rest)).map (fun q => (Json.number q.1, q.2))
      else none

/-- Parse an object body after the opening brace. -/
def parseObjBody : Nat → List Char → Option (Json × List Char)
  | 0, _ => none
  | fuel + 1, s =>
    match skipJsonWs s with
    | '\x7d' :: rest => some (Json.obj [], rest)
    | _ => (parseMembers fuel s).map (fun q => (Json.obj q.1, q.2))

/-- Parse a non-empty member list of an object, consuming the closing brace. -/
def parseMembers : Nat → List Char → Option (List (List Char × Json) × List Char)
  | 0, _ => none
  | fuel + 1, s =>
    match skipJsonWs s with
    | '"' :: rest =>
      match parseStrBody rest with
      | none => none
      | some (key, r1) =>
        match skipJsonWs r1 with
        | ':' :: r2 =>
          match parseVal fuel r2 with
          | none => none
          | some (v, r3) =>
            match skipJsonWs r3 with
            | ',' :: r4 => (parseMembers fuel r4).map (fun q => ((key, v) :: q.1, q.2))
            | '\x7d' :: r4 => some ((key, v) :: [], r4)
            | _ => none
        | _ => none
    | _ => none

/-- Parse an array body after the opening bracket. -/
def parseArrBody : Nat → List Char → Option (Json × List Char)
  | 0, _ => none
  | fuel + 1, s =>
    match skipJsonWs s with
    | ']' :: rest => some (Json.arr [], rest)
    | _ => (parseElems fuel s).map (fun q => (Json.arr q.1, q.2))

/-- Parse a non-empty element list of an array, consuming the closing bracket. -/
def parseElems : Nat → List Char → Option (List Json × List Char)
  | 0, _ => none
  | fuel + 1, s =>
    match parseVal fuel s with
    | none => none
    | some (v, r1) =>
      match skipJsonWs r1 with
      | ',' :: r2 => (parseElems fuel r2).map (fun q => (v :: q.1, q.2))
      | ']' :: r2 => some (v :: [], r2)
      | _ => none

end

/-- Modelled from the spec: JavaScript `JSON.parse` as called by the
Embedded-Data Extractor on each regex candidate (the call site lives in the
YouTube service, which is not among the visible sources).  Accepts exactly
one JSON value up to surrounding whitespace; the fuel bound dominates the
recursion depth of any successful parse. -/
def jsonParse (s : List Char) : Option Json :=
  match parseVal (2 * s.length + 8) s with
  | some (j, rest) => if skipJsonWs rest = [] then some j else none
  | none => none

/-- Matcher shared by the three assignment-form `ytInitialData` patterns
(src/constants.ts:14,17,18): a literal head, then `\s*=\s*({[\s\S]+?});`,
the capture running lazily up to the first `};`. -/
def matchYtAssignAt (lit : List Char) (s : List Char) : Option (List Char) :=
  match stripLit lit s with
  | none => none
  | some r1 =>
    let w1 := grabClass isWsChar r1
    match stripLit ('=' :: []) w1.2 with
    | none => none
    | some r2 =>
      let w2 := grabClass isWsChar r2
      match w2.2 with
      | '\x7b' :: r3 =>
        match lazyBodySemi [] r3 with
        | some q => some ('\x7b' :: q.1 ++ '\x7d' :: [])
        | none => none
      | _ => none

/-- Matcher for `YT_INITIAL_DATA_ALT_REGEX_3 =
/"ytInitialData"\s*:\s*({[\s\S]+?})/` (src/constants.ts:19): a quoted key,
then `\s*:\s*`, the capture running lazily up to the first `}`. -/
def matchYtJsonKeyAt (s : List Char) : Option (List Char) :=
  match stripLit ("\"ytInitialData\"".data) s with
  | none => none
  | some r1 =>
    let w1 := grabClass isWsChar r1
    match stripLit (':' :: []) w1.2 with
    | none => none
    | some r2 =>
      let w2 := grabClass isWsChar r2
      match w2.2 with
      | '\x7b' :: r3 =>
        match lazyBodyBrace [] r3 with
        | some q => some ('\x7b' :: q.1 ++ '\x7d' :: [])
        | none => none
      | _ => none

/-- Candidate of `YT_INITIAL_DATA_REGEX = /var ytInitialData\s*=\s*({[\s\S]+?});/`
(src/constants.ts:14). -/
def ytCandidate1 (html : List Char) : Option (List Char) :=
  scanLeft (matchYtAssignAt ("var ytInitialData".data)) html

/-- Candidate of `YT_INITIAL_DATA_ALT_REGEX_1 = /window\.ytInitialData\s*=\s*({[\s\S]+?});/`
(src/constants.ts:17). -/
def ytCandidate2 (html : List Char) : Option (List Char) :=
  scanLeft (matchYtAssignAt ("window.ytInitialData".data)) html

/-- Candidate of `YT_INITIAL_DATA_ALT_REGEX_2 = /ytInitialData\s*=\s*({[\s\S]+?});/`
(src/constants.ts:18). -/
def ytCandidate3 (html : List Char) : Option (List Char) :=
  scanLeft (matchYtAssignAt ("ytInitialData".data)) html

/-- Candidate of `YT_INITIAL_DATA_ALT_REGEX_3 = /"ytInitialData"\s*:\s*({[\s\S]+?})/`
(src/constants.ts:19). -/
def ytCandidate4 (html : List Char) : Option (List Char) :=
  scanLeft matchYtJsonKeyAt html

/-- Ordered list of the four pattern candidates on a page. -/
def ytCandidates (html : List Char) : List (Option (List Char)) :=
  ytCandidate1 html :: ytCandidate2 html :: ytCandidate3 html :: ytCandidate4 html :: []

/-- Result of one fallback step: a candidate counts only when it matched and
its match parses as valid JSON. -/
def parsedCandidate (c : Option (List Char)) : Option Json := c.bind jsonParse

/-- Modelled from the spec: the Embedded-Data Extractor of the YouTube
service (not among the visible sources) tries the four patterns of
src/constants.ts:14-19 in strict order, stopping at the first candidate
that both matches and parses as valid JSON; a candidate that matches but
fails to parse is treated as a non-match.  `none` models
`EmbeddedDataNotFound`. -/
def extractYtInitialData (html : List Char) : Option Json :=
  match parsedCandidate (ytCandidate1 html) with
  | some j => some j
  | none =>
    match parsedCandidate (ytCandidate2 html) with
    | some j => some j
    | none =>
      match parsedCandidate (ytCandidate3 html) with
      | some j => some j
      | none => parsedCandidate (ytCandidate4 html)

/-- Lookup of an object field by key. -/
def findField (key : List Char) : List (List Char × Json) → Option Json
  | [] => none
  | kv :: rest => if kv.1 = key then some kv.2 else findField key rest

/-- Lookup of a key inside a JSON value; non-objects have no fields. -/
def jsonGet (key : List Char) : Json → Option Json
  | Json.obj fields => findField key fields
  | _ => none

/-- Modelled from the spec: the Caption Track Resolver locates "the list of
caption track descriptors" inside the parsed embedded data (the resolver
lives in the YouTube service, not among the visible sources; the spec
leaves the exact JSON path unstated, so the canonical watch-page path
`captions.playerCaptionsTracklistRenderer.captionTracks` is used).  An
absent list, a non-array value or any missing step yields the empty list,
the spec's "empty or absent" condition. -/
def captionTracksOf (data : Json) : List Json :=
  match jsonGet ("captions".data) data with
  | none => []
  | some c =>
    match jsonGet ("playerCaptionsTracklistRenderer".data) c with
    | none => []
    | some r =>
      match jsonGet ("captionTracks".data) r with
      | some (Json.arr ts) => ts
      | _ => []

/-- Timed transcript line of the data model: text with start and duration in
seconds (times modelled as rationals). -/
structure TranscriptLine where
  text : List Char
  start : Rat
  duration : Rat

/-- Caption cue entry of the fetched caption payload, as described for the
Transcript Assembler: start time, duration and text. -/
structure Cue where
  text : List Char
  start : Rat
  duration : Rat

/-- Modelled from the spec: placeholder title used when extraction fails
("title and author always have a value, falling back to a placeholder";
the concrete placeholder text lives in the YouTube service). -/
def titlePlaceholder : List Char := "Unknown Title".data

/-- Modelled from the spec: placeholder author used when extraction fails. -/
def authorPlaceholder : List Char := "Unknown Author".data

/-- Modelled from the spec: the Metadata Extractor's surfaced title — the
inline JSON `title` field capture, unescaped, preferred; the
`TITLE_META_REGEX` meta-tag capture as fallback. -/
def extractedTitle (html : List Char) : Option (List Char) :=
  match titleCapture html with
  | some t => some (unescapeJson t)
  | none => titleMetaCapture html

/-- Modelled from the spec: the Metadata Extractor's surfaced author — the
inline JSON `author` field capture, unescaped. -/
def extractedAuthor (html : List Char) : Option (List Char) :=
  (authorCapture html).map unescapeJson

/-- Aggregate response of `fetchTranscript` (data model section of the
spec): optional fields are `none` when extraction fails, `title` and
`author` always carry a value, `lines` is never missing (empty means "no
transcript available"). -/
structure TranscriptResponse where
  videoId : List Char
  title : List Char
  author : List Char
  channelHandle : Option (List Char)
  channelUrl : Option (List Char)
  publishDate : Option (List Char)
  lines : List TranscriptLine

/-- Modelled from the spec: the metadata part of the response, each field
recovered independently by its extractor; failures are absorbed into
`none` / placeholder values and `lines` starts empty. -/
def buildMeta (html : List Char) (vid : List Char) : TranscriptResponse :=
  { videoId := vid
    title := (extractedTitle html).getD titlePlaceholder
    author := (extractedAuthor html).getD authorPlaceholder
    channelHandle := extractChannelHandle html
    channelUrl := (channelIdCapture html).map
      (fun cid => "https://www.youtube.com/channel/".data ++ cid)
    publishDate := publishDateCapture html
    lines := [] }

/-- Modelled from the spec: cue text is surfaced after "trimming/unescaping
text content". -/
def cleanCueText (s : List Char) : List Char := trimWs (unescapeJson s)

/-- Modelled from the spec: the Transcript Assembler maps cue entries to
`TranscriptLine`s, "preserving source ordering (which is already
chronological)". -/
def assembleLines (payload : List Cue) : List TranscriptLine :=
  payload.map (fun cue =>
    { text := cleanCueText cue.text, start := cue.start, duration := cue.duration })

/-- Terminal error kinds of `fetchTranscript`: only invalid input and
network failure are fatal to a call. -/
inductive FetchErr where
  | invalidUrl : FetchErr
  | network : FetchErr

/-- Results of the two HTTP fetches a call performs (watch page, then
caption content), supplied as inputs to keep the pipeline a pure function. -/
structure HttpEnv where
  page : Except FetchErr (List Char)
  captions : Except FetchErr (List Cue)

/-- Modelled from the spec: `fetchTranscript` of the YouTube service (not
among the visible sources) — Resolver, Fetcher, Metadata and Embedded-Data
Extractors, Caption Track Resolver, Assembler in sequence.  A missing
embedded-data object (`EmbeddedDataNotFound`) and an empty or absent
caption-track list (`NoCaptionsAvailable`) are recoverable: the call still
resolves with the metadata-only, empty-transcript response.  Only invalid
input and network failures reject. -/
def fetchTranscript (env : HttpEnv) (url : List Char) : Except FetchErr TranscriptResponse :=
  match extractVideoId url with
  | none => Except.error FetchErr.invalidUrl
  | some vid =>
    match env.page with
    | Except.error _ => Except.error FetchErr.network
    | Except.ok html =>
      let meta := buildMeta html vid
      match extractYtInitialData html with
      | none => Except.ok meta
      | some data =>
        match captionTracksOf data with
        | [] => Except.ok meta
        | _ :: _ =>
          match env.captions with
          | Except.error _ => Except.error FetchErr.network
          | Except.ok payload => Except.ok { meta with lines := assembleLines payload }

/-- Busy flag of the plugin (src/main.ts:22), the single piece of mutable
plugin state the embedded methods touch. -/
structure PluginState where
  isProcessing : Bool

/-- Selected model as read at src/main.ts:172 and 180: provider name and
API key; the empty key models a missing (falsy) `apiKey`. -/
structure SelectedModel where
  providerName : List Char
  apiKey : List Char

/-- Observable effects of one command invocation, in order: notices shown,
the transcript network fetch, the provider summarization call, the file
save. -/
inductive Effect where
  | notice : List Char → Effect
  | fetchCall : Effect
  | summarizeCall : Effect
  | saveFile : List Char → Effect
deriving DecidableEq

/-- Notice text at src/main.ts:165 and 236. -/
def busyNotice : List Char := "Already processing a video, please wait...".data

/-- Notice text at src/main.ts:175 and 243. -/
def noModelNotice : List Char :=
  "No AI model selected. Please select a model in the plugin settings.".data

/-- Notice text at src/main.ts:181-183 and 247. -/
def apiKeyNotice (m : SelectedModel) : List Char :=
  m.providerName ++ " API key is missing. Please set it in the plugin settings.".data

/-- Notice text at src/main.ts:188 and 251. -/
def noProviderNotice : List Char :=
  "AI provider not initialized. Please check your settings.".data

/-- Notice text at src/main.ts:193 and 254. -/
def fetchingNotice : List Char := "Fetching video transcript...".data

/-- Notice text at src/main.ts:208. -/
def generatingNotice : List Char := "Generating summary...".data

/-- Notice text at src/main.ts:221 and 264. -/
def savedNotice : List Char := "Transcript saved to channel folder!".data

/-- Error notice template at src/main.ts:198, 213, 223, 259, 266. -/
def errNotice (e : List Char) : List Char := "Error: ".data ++ e

/-- Characters replaced in file names (src/main.ts:283): the class
`[/\\?%*:|"<>]`. -/
def isFsForbidden (c : Char) : Bool :=
  c = '/' || c = '\\' || c = '?' || c = '%' || c = '*' || c = ':' ||
  c = '|' || c = '"' || c = '<' || c = '>'

/-- Title sanitization of `saveTranscriptToFolder` (src/main.ts:283):
`title.replace(/[/\\?%*:|"<>]/g, "-")`. -/
def sanitizeTitle (s : List Char) : List Char :=
  s.map (fun c => if isFsForbidden c then '-' else c)

/-- File path computed by `saveTranscriptToFolder` (src/main.ts:280-284):
`YouTube/<handle>/<fileName>.md` with the truthiness fallbacks of the
source (`channelHandle ? channelHandle : 'unknown_channel'` and
`sanitized || videoId`). -/
def savePath (t : TranscriptResponse) : List Char :=
  let handle := match t.channelHandle with
    | some h => if h = [] then "unknown_channel".data else h
    | none => "unknown_channel".data
  let base := sanitizeTitle t.title
  let name := if base = [] then t.videoId else base
  "YouTube/".data ++ handle ++ '/' :: name ++ ".md".data

/-- Outcomes of the collaborator calls made during one invocation, supplied
as inputs so that every control path of the source methods is covered:
the selected model, provider initialization, and the results of the
fallible transcript fetch, summarization and file save. -/
structure RunCfg where
  selectedModel : Option SelectedModel
  providerReady : Bool
  fetchOutcome : Except (List Char) TranscriptResponse
  summaryOutcome : Except (List Char) (List Char)
  saveOutcome : Except (List Char) Unit

/-- Embedding of `summarizeVideo` (src/main.ts:162-229): the busy-flag gate,
the three early returns, the caught fetch and summary errors, the outer
catch around the save, and the `finally` that clears the flag on every exit
path of the try block.  Returns the final plugin state and the ordered
effect list. -/
def summarizeVideo (st : PluginState) (cfg : RunCfg) : PluginState × List Effect :=
  if st.isProcessing then
    (st, Effect.notice busyNotice :: [])
  else
    match cfg.selectedModel with
    | none => ({ isProcessing := false }, Effect.notice noModelNotice :: [])
    | some m =>
      if m.apiKey = [] then
        ({ isProcessing := false }, Effect.notice (apiKeyNotice m) :: [])
      else if cfg.providerReady = false then
        ({ isProcessing := false }, Effect.notice noProviderNotice :: [])
      else
        match cfg.fetchOutcome with
        | Except.error e =>
          ({ isProcessing := false },
            Effect.notice fetchingNotice :: Effect.fetchCall :: Effect.notice (errNotice e) :: [])
        | Except.ok tr =>
          match cfg.summaryOutcome with
          | Except.error e =>
            ({ isProcessing := false },
              Effect.notice fetchingNotice :: Effect.fetchCall :: Effect.notice generatingNotice ::
                Effect.summarizeCall :: Effect.notice (errNotice e) :: [])
          | Except.ok _ =>
            match cfg.saveOutcome with
            | Except.error e =>
              ({ isProcessing := false },
                Effect.notice fetchingNotice :: Effect.fetchCall :: Effect.notice generatingNotice ::
                  Effect.summarizeCall :: Effect.notice (errNotice e) :: [])
            | Except.ok _ =>
              ({ isProcessing := false },
                Effect.notice fetchingNotice :: Effect.fetchCall :: Effect.notice generatingNotice ::
                  Effect.summarizeCall :: Effect.saveFile (savePath tr) ::
                  Effect.notice savedNotice :: [])

/-- Embedding of `saveSubtitlesOnly` (src/main.ts:234-271): as
`summarizeVideo` but with no summarization step. -/
def saveSubtitlesOnly (st : PluginState) (cfg : RunCfg) : PluginState × List Effect :=
  if st.isProcessing then
    (st, Effect.notice busyNotice :: [])
  else
    match cfg.selectedModel with
    | none => ({ isProcessing := false }, Effect.notice noModelNotice :: [])
    | some m =>
      if m.apiKey = [] then
        ({ isProcessing := false }, Effect.notice (apiKeyNotice m) :: [])
      else if cfg.providerReady = false then
        ({ isProcessing := false }, Effect.notice noProviderNotice :: [])
      else
        match cfg.fetchOutcome with
        | Except.error e =>
          ({ isProcessing := false },
            Effect.notice fetchingNotice :: Effect.fetchCall :: Effect.notice (errNotice e) :: [])
        | Except.ok tr =>
          match cfg.saveOutcome with
          | Except.error e =>
            ({ isProcessing := false },
              Effect.notice fetchingNotice :: Effect.fetchCall :: Effect.notice (errNotice e) :: [])
          | Except.ok _ =>
            ({ isProcessing := false },
              Effect.notice fetchingNotice :: Effect.fetchCall ::
                Effect.saveFile (savePath tr) :: Effect.notice savedNotice :: [])

/-- Join with a single-space separator, as `Array.prototype.join(' ')`. -/
def joinSpace : List (List Char) → List Char
  | [] => []
  | x :: [] => x
  | x :: y :: rest => x ++ ' ' :: joinSpace (y :: rest)

/-- Embedding of the prompt text built at src/main.ts:206:
`transcript.lines.map((line) => line.text).join(' ')`. -/
def transcriptPlainText (t : TranscriptResponse) : List Char :=
  joinSpace (t.lines.map (fun l => l.text))

/-- Plain-text content of a caption payload in source (chronological)
order, the reference value of the round-trip property. -/
def payloadPlainText (p : List Cue) : List Char :=
  joinSpace (p.map (fun cue => cleanCueText cue.text))

/-- Specification-side well-formed watch URL containing a video id. -/
def watchUrlOf (id : List Char) : List Char := "https://www.youtube.com/watch?v=".data ++ id

/-- Specification-side well-formed shorts URL containing a video id. -/
def shortsUrlOf (id : List Char) : List Char := "https://www.youtube.com/shorts/".data ++ id

/-- Specification-side well-formed youtu.be short-link URL containing a
video id. -/
def shortLinkUrlOf (id : List Char) : List Char := "https://youtu.be/".data ++ id

theorem takeExact_full (p : Char → Bool) :
    ∀ (l : List Char), l.all p = true → takeExact l.length p l = some l
  | [], _ => rfl
  | c :: cs, h => by
      simp only [List.all_cons, Bool.and_eq_true] at h
      simp [takeExact, h.1, takeExact_full p cs h.2]

theorem stripLit_self (l : List Char) : ∀ (r : List Char), stripLit l (l ++ r) = some r := by
  induction l with
  | nil => intro r; rfl
  | cons c cs ih => intro r; simp [stripLit, ih]

theorem scanLeft_at {α : Type} (m : List Char → Option α) :
    ∀ (s : List Char) (k : Nat) (v : α),
      (∀ i, i < k → m (s.drop i) = none) → m (s.drop k) = some v → k < s.length →
      scanLeft m s = some v := by
  intro s
  induction s with
  | nil => intro k v _ _ hk; simp at hk
  | cons c cs ih =>
    intro k v hfail hm hk
    match k with
    | 0 => simp only [List.drop_zero] at hm; simp [scanLeft, hm]
    | k' + 1 =>
      have h0 : m (c :: cs) = none := by
        have := hfail 0 (Nat.succ_pos _)
        simpa using this
      have hstep : scanLeft m (c :: cs) = scanLeft m cs := by simp [scanLeft, h0]
      rw [hstep]
      exact ih k' v (fun i hi => hfail (i + 1) (Nat.succ_lt_succ hi)) hm
        (Nat.lt_of_succ_lt_succ hk)

theorem grabClass_append (p : Char → Bool) :
    ∀ (l : List Char) (r0 : Char) (rs : List Char),
      l.all p = true → p r0 = false → grabClass p (l ++ r0 :: rs) = (l, r0 :: rs) := by
  intro l
  induction l with
  | nil => intro r0 rs _ hr; simp [grabClass, hr]
  | cons c cs ih =>
    intro r0 rs hl hr
    simp only [List.all_cons, Bool.and_eq_true] at hl
    simp [grabClass, hl.1, ih r0 rs hl.2 hr]

theorem grabUnits_quote (rest : List Char) : grabUnits ('"' :: rest) = ([], '"' :: rest) := by
  rw [grabUnits.eq_def]; simp

theorem grabUnits_escQuote (rest : List Char) :
    grabUnits ('\\' :: '"' :: rest) = ('\\' :: '"' :: (grabUnits rest).1, (grabUnits rest).2) := by
  rw [grabUnits.eq_def]; simp

theorem grabUnits_escBack (rest : List Char) :
    grabUnits ('\\' :: '\\' :: rest) = ('\\' :: '\\' :: (grabUnits rest).1, (grabUnits rest).2) := by
  rw [grabUnits.eq_def]; simp

theorem grabUnits_plain (c : Char) (rest : List Char) (h1 : ¬c = '\\') (h2 : ¬c = '"') :
    grabUnits (c :: rest) = (c :: (grabUnits rest).1, (grabUnits rest).2) := by
  rw [grabUnits.eq_def]; simp [h1, h2]

theorem unescapeJson_escQuote (rest : List Char) :
    unescapeJson ('\\' :: '"' :: rest) = '"' :: unescapeJson rest := by
  rw [unescapeJson.eq_def]; simp

theorem unescapeJson_escBack (rest : List Char) :
    unescapeJson ('\\' :: '\\' :: rest) = '\\' :: unescapeJson rest := by
  rw [unescapeJson.eq_def]; simp

theorem unescapeJson_plain (c : Char) (rest : List Char) (h : ¬c = '\\') :
    unescapeJson (c :: rest) = c :: unescapeJson rest := by
  rw [unescapeJson.eq_def]; simp [h]

theorem grabUnits_escape : ∀ (t rest : List Char),
    grabUnits (escapeJson t ++ '"' :: rest) = (escapeJson t, '"' :: rest) := by
  intro t
  induction t with
  | nil => intro rest; simp [escapeJson, grabUnits_quote]
  | cons c cs ih =>
    intro rest
    by_cases hq : c = '"'
    · simp [escapeJson, hq, grabUnits_escQuote, ih rest]
    · by_cases hb : c = '\\'
      · simp [escapeJson, hq, hb, grabUnits_escBack, ih rest]
      · simp [escapeJson, hq, hb, grabUnits_plain c _ hb hq, ih rest]

theorem unescapeJson_escapeJson : ∀ (t : List Char), unescapeJson (escapeJson t) = t := by
  intro t
  induction t with
  | nil => rfl
  | cons c cs ih =>
    by_cases hq : c = '"'
    · simp [escapeJson, hq, unescapeJson_escQuote, ih]
    · by_cases hb : c = '\\'
      · simp [escapeJson, hq, hb, unescapeJson_escBack, ih]
      · simp [escapeJson, hq, hb, unescapeJson_plain c _ hb, ih]

theorem escapeJson_ne_nil (t : List Char) (h : t ≠ []) : escapeJson t ≠ [] := by
  match t with
  | [] => exact absurd rfl h
  | c :: cs =>
    by_cases hq : c = '"'
    · simp [escapeJson, hq]
    · by_cases hb : c = '\\'
      · simp [escapeJson, hq, hb]
      · simp [escapeJson, hq, hb]

/-- C3: for every watch, shorts or youtu.be short-link URL containing an
11-character video id (characters a-z, A-Z, 0-9, underscore, dash),
`extractVideoId` returns exactly that id, the first capture group of
`VIDEO_ID_REGEX`. -/
theorem extractVideoId_wellformed_urls (id : List Char)
    (h1 : id.length = 11) (h2 : id.all isIdChar = true) :
    extractVideoId (watchUrlOf id) = some id ∧
    extractVideoId (shortsUrlOf id) = some id ∧
    extractVideoId (shortLinkUrlOf id) = some id := by
  have ht : takeExact 11 isIdChar id = some id := by
    have h := takeExact_full isIdChar id h2
    rwa [h1] at h
  refine ⟨?_, ?_, ?_⟩
  · refine scanLeft_at matchIdAt (watchUrlOf id) 30 id ?_ ?_ ?_
    · intro i hi
      interval_cases i <;> rfl
    · show takeExact 11 isIdChar id = some id
      exact ht
    · have hlen : (watchUrlOf id).length = 32 + id.length := by
        have h32 : ("https://www.youtube.com/watch?v=".data).length = 32 := rfl
        simp [watchUrlOf, h32]; omega
      omega
  · refine scanLeft_at matchIdAt (shortsUrlOf id) 24 id ?_ ?_ ?_
    · intro i hi
      interval_cases i <;> rfl
    · show takeExact 11 isIdChar id = some id
      exact ht
    · have hlen : (shortsUrlOf id).length = 31 + id.length := by
        have h31 : ("https://www.youtube.com/shorts/".data).length = 31 := rfl
        simp [shortsUrlOf, h31]; omega
      omega
  · refine scanLeft_at matchIdAt (shortLinkUrlOf id) 16 id ?_ ?_ ?_
    · intro i hi
      interval_cases i <;> rfl
    · show takeExact 11 isIdChar id = some id
      exact ht
    · have hlen : (shortLinkUrlOf id).length = 17 + id.length := by
        have h17 : ("https://youtu.be/".data).length = 17 := rfl
        simp [shortLinkUrlOf, h17]; omega
      omega

/-- C3 witness: concrete evaluation on the id dQw4w9WgXcQ in all three URL
forms. -/
theorem extractVideoId_wellformed_urls_witness :
    extractVideoId (watchUrlOf ("dQw4w9WgXcQ".data)) = some ("dQw4w9WgXcQ".data) ∧
    extractVideoId (shortsUrlOf ("dQw4w9WgXcQ".data)) = some ("dQw4w9WgXcQ".data) ∧
    extractVideoId (shortLinkUrlOf ("dQw4w9WgXcQ".data)) = some ("dQw4w9WgXcQ".data) :=
  extractVideoId_wellformed_urls ("dQw4w9WgXcQ".data) rfl rfl

/-- Specification-side inline JSON title field whose raw text is `t`: the
field content carries `t` with its quotes and backslashes escaped. -/
def titleJsonField (t post : List Char) : List Char :=
  "\"title\":\"".data ++ escapeJson t ++ '"' :: post

/-- C4: on a page whose inline JSON `title` field carries the escaped form
of a raw text, `TITLE_REGEX` captures the full escaped field content, and
the surfaced title is the raw text again: every `\"` and `\\` escape is
resolved exactly once and no double-unescaping occurs.  `pre` is the page
content before the field, required not to contain an earlier match. -/
theorem title_escapes_resolved_once (pre t post : List Char) (ht : t ≠ [])
    (hpre : ∀ i, i < pre.length →
      matchJsonFieldAt ('t' :: 'i' :: 't' :: 'l' :: 'e' :: [])
        ((pre ++ titleJsonField t post).drop i) = none) :
    titleCapture (pre ++ titleJsonField t post) = some (escapeJson t) ∧
    extractedTitle (pre ++ titleJsonField t post) = some t := by
  have hm0 : matchJsonFieldAt ('t' :: 'i' :: 't' :: 'l' :: 'e' :: []) (titleJsonField t post) =
      (if (grabUnits (escapeJson t ++ '"' :: post)).1 ≠ [] ∧
          (grabUnits (escapeJson t ++ '"' :: post)).2.head? = some '"' then
        some (grabUnits (escapeJson t ++ '"' :: post)).1
      else none) := rfl
  have hm : matchJsonFieldAt ('t' :: 'i' :: 't' :: 'l' :: 'e' :: []) (titleJsonField t post) =
      some (escapeJson t) := by
    rw [hm0, grabUnits_escape]
    simp [escapeJson_ne_nil t ht]
  have hcap : titleCapture (pre ++ titleJsonField t post) = some (escapeJson t) := by
    refine scanLeft_at _ _ pre.length (escapeJson t) hpre ?_ ?_
    · rw [List.drop_left]
      exact hm
    · have h9 : ("\"title\":\"".data).length = 9 := rfl
      have : (titleJsonField t post).length = 9 + (escapeJson t).length + (1 + post.length) := by
        simp [titleJsonField, h9]; omega
      simp [List.length_append]
      omega
  refine ⟨hcap, ?_⟩
  simp [extractedTitle, hcap, unescapeJson_escapeJson]

/-- C4 witness: the spec's own example field on a concrete page. -/
theorem title_escapes_resolved_once_witness :
    titleCapture ("<p>".data ++ titleJsonField ("A \"quoted\" title".data) ("</p>".data)) =
      some (escapeJson ("A \"quoted\" title".data)) ∧
    extractedTitle ("<p>".data ++ titleJsonField ("A \"quoted\" title".data) ("</p>".data)) =
      some ("A \"quoted\" title".data) :=
  title_escapes_resolved_once ("<p>".data) ("A \"quoted\" title".data) ("</p>".data)
    (by decide) (by decide)

/-- Specification-side canonical channel link tag around a handle. -/
def handleLinkTag (handle post : List Char) : List Char :=
  "<link itemprop=\"url\" href=\"https://www.youtube.com/@".data ++ handle ++ '"' :: '>' :: post

/-- C9: on a page containing the canonical `<link itemprop="url" ...>` tag,
`CHANNEL_HANDLE_REGEX` captures exactly the handle segment after the `@`
(characters a-z, A-Z, 0-9, underscore, dot, dash), with no leading `@` and
nothing beyond the closing quote.  `pre` is the page content before the
tag, required not to contain an earlier match. -/
theorem channel_handle_captured_exactly (pre handle post : List Char)
    (h1 : handle ≠ []) (h2 : handle.all isHandleChar = true)
    (hpre : ∀ i, i < pre.length →
      matchHandleAt ((pre ++ handleLinkTag handle post).drop i) = none) :
    extractChannelHandle (pre ++ handleLinkTag handle post) = some handle := by
  have hm0 : matchHandleAt (handleLinkTag handle post) =
      (if (grabClass isHandleChar (handle ++ '"' :: '>' :: post)).1 ≠ [] ∧
          (grabClass isHandleChar (handle ++ '"' :: '>' :: post)).2.head? = some '"' then
        some (grabClass isHandleChar (handle ++ '"' :: '>' :: post)).1
      else none) := rfl
  have hq : isHandleChar '"' = false := by decide
  have hm : matchHandleAt (handleLinkTag handle post) = some handle := by
    rw [hm0, grabClass_append isHandleChar handle '"' ('>' :: post) h2 hq]
    simp [h1]
  refine scanLeft_at _ _ pre.length handle hpre ?_ ?_
  · rw [List.drop_left]
    exact hm
  · have h46 : ("<link itemprop=\"url\" href=\"https://www.youtube.com/@".data).length = 52 := by rfl
    have : (handleLinkTag handle post).length = 52 + (handle.length + (2 + post.length)) := by
      simp [handleLinkTag, h46]; omega
    simp [List.length_append]
    omega

/-- C9 witness: concrete evaluation on a page with a dotted, digited
handle. -/
theorem channel_handle_captured_exactly_witness :
    extractChannelHandle ("<html><head>".data ++
      handleLinkTag ("Some_user.01".data) ("</head>".data)) = some ("Some_user.01".data) :=
  channel_handle_captured_exactly ("<html><head>".data) ("Some_user.01".data) ("</head>".data)
    (by decide) (by decide) (by decide)

/-- Specification-side sanitization for the save path: every occurrence of
the ten listed characters replaced by a dash. -/
def specSanitize (s : List Char) : List Char :=
  s.map (fun c =>
    if c = '/' ∨ c = '\\' ∨ c = '?' ∨ c = '%' ∨ c = '*' ∨ c = ':' ∨ c = '|' ∨
        c = '"' ∨ c = '<' ∨ c = '>' then '-' else c)

/-- Specification-side folder handle: the response's channelHandle when it
is a non-empty defined value, the literal fallback otherwise. -/
def specHandle (t : TranscriptResponse) : List Char :=
  match t.channelHandle with
  | some h => if h ≠ [] then h else "unknown_channel".data
  | none => "unknown_channel".data

/-- Specification-side file base name: the sanitized title, falling back to
the videoId when the sanitized title is empty. -/
def specFileBase (t : TranscriptResponse) : List Char :=
  if specSanitize t.title = [] then t.videoId else specSanitize t.title

theorem sanitizeTitle_eq_spec (s : List Char) : sanitizeTitle s = specSanitize s := by
  unfold sanitizeTitle specSanitize
  congr 1
  funext c
  by_cases h : (c = '/' ∨ c = '\\' ∨ c = '?' ∨ c = '%' ∨ c = '*' ∨ c = ':' ∨ c = '|' ∨
      c = '"' ∨ c = '<' ∨ c = '>')
  · have hb : isFsForbidden c = true := by
      rcases h with h | h | h | h | h | h | h | h | h | h <;> simp [isFsForbidden, h]
    simp [hb, h]
  · have hb : isFsForbidden c = false := by
      simp only [isFsForbidden, Bool.or_eq_false_iff, decide_eq_false_iff_not]
      push_neg at h
      tauto
    simp [hb, h]

/-- C10: `saveTranscriptToFolder` writes to `YouTube/<handle>/<name>.md`,
where `<handle>` is the channelHandle when defined and non-empty and the
literal `unknown_channel` otherwise, and `<name>` is the title with each of
the characters / \ ? % * : | " < > replaced by a dash, falling back to the
videoId when that sanitized title is empty. -/
theorem savePath_layout (t : TranscriptResponse) :
    savePath t = "YouTube/".data ++ specHandle t ++ '/' :: specFileBase t ++ ".md".data := by
  unfold savePath specHandle specFileBase
  rw [sanitizeTitle_eq_spec]
  cases hch : t.channelHandle with
  | none => simp
  | some h =>
    by_cases hh : h = [] <;> simp [hh]

/-- C6: an invocation of `summarizeVideo` or `saveSubtitlesOnly` while the
busy flag is set returns immediately after the busy notice, leaves the
state untouched, and performs no network fetch and no summarization call. -/
theorem busy_invocation_rejected_immediately (st : PluginState) (cfg cfg2 : RunCfg)
    (h : st.isProcessing = true) :
    summarizeVideo st cfg = (st, Effect.notice busyNotice :: []) ∧
    saveSubtitlesOnly st cfg2 = (st, Effect.notice busyNotice :: []) ∧
    (Effect.fetchCall ∉ (summarizeVideo st cfg).2 ∧
      Effect.summarizeCall ∉ (summarizeVideo st cfg).2) ∧
    (Effect.fetchCall ∉ (saveSubtitlesOnly st cfg2).2 ∧
      Effect.summarizeCall ∉ (saveSubtitlesOnly st cfg2).2) := by
  simp [summarizeVideo, saveSubtitlesOnly, h]

/-- C6 witness: concrete busy state and configurations. -/
theorem busy_invocation_rejected_immediately_witness :
    summarizeVideo ⟨true⟩ ⟨none, false, Except.error [], Except.error [], Except.error []⟩ =
      (⟨true⟩, Effect.notice busyNotice :: []) ∧
    saveSubtitlesOnly ⟨true⟩ ⟨none, false, Except.error [], Except.error [], Except.error []⟩ =
      (⟨true⟩, Effect.notice busyNotice :: []) ∧
    (Effect.fetchCall ∉
        (summarizeVideo ⟨true⟩ ⟨none, false, Except.error [], Except.error [], Except.error []⟩).2 ∧
      Effect.summarizeCall ∉
        (summarizeVideo ⟨true⟩ ⟨none, false, Except.error [], Except.error [], Except.error []⟩).2) ∧
    (Effect.fetchCall ∉
        (saveSubtitlesOnly ⟨true⟩ ⟨none, false, Except.error [], Except.error [], Except.error []⟩).2 ∧
      Effect.summarizeCall ∉
        (saveSubtitlesOnly ⟨true⟩ ⟨none, false, Except.error [], Except.error [], Except.error []⟩).2) :=
  busy_invocation_rejected_immediately ⟨true⟩
    ⟨none, false, Except.error [], Except.error [], Except.error []⟩
    ⟨none, false, Except.error [], Except.error [], Except.error []⟩ rfl

/-- C7: the busy flag is restored on every exit path of both methods: the
final flag always equals the initial one, so a run that set it to true
(entering with it false) always leaves it false again — across normal
completion, every early return and every caught error, for all collaborator
outcomes. -/
theorem busy_flag_cleared_on_all_exits (st : PluginState) (cfg cfg2 : RunCfg) :
    (summarizeVideo st cfg).1.isProcessing = st.isProcessing ∧
    (saveSubtitlesOnly st cfg2).1.isProcessing = st.isProcessing := by
  obtain ⟨b⟩ := st
  cases b
  · constructor
    · obtain ⟨sm, pr, fo, so, sv⟩ := cfg
      rcases sm with _ | m <;> rcases fo with e | tr <;> rcases so with e2 | s2 <;>
        rcases sv with e3 | u <;> simp [summarizeVideo] <;> split_ifs <;> rfl
    · obtain ⟨sm, pr, fo, so, sv⟩ := cfg2
      rcases sm with _ | m <;> rcases fo with e | tr <;> rcases so with e2 | s2 <;>
        rcases sv with e3 | u <;> simp [saveSubtitlesOnly] <;> split_ifs <;> rfl
  · constructor <;> simp [summarizeVideo, saveSubtitlesOnly]

/-- C8: building the response lines from a caption payload and joining
their texts with single spaces, as the consumer at src/main.ts:206 does,
reproduces the payload's plain-text content, and the chronological order of
the cues is preserved in the assembled lines. -/
theorem assemble_join_reproduces_plaintext (p : List Cue) (t : TranscriptResponse)
    (hl : t.lines = assembleLines p)
    (hc : List.Chain' (fun a b : Cue => a.start ≤ b.start) p) :
    transcriptPlainText t = payloadPlainText p ∧
    List.Chain' (fun a b : TranscriptLine => a.start ≤ b.start) t.lines := by
  constructor
  · rw [transcriptPlainText, hl]
    simp [assembleLines, payloadPlainText, List.map_map]
    rfl
  · rw [hl]
    simp only [assembleLines, List.chain'_map]
    exact hc

/-- C8 witness: a concrete two-cue payload in chronological order. -/
theorem assemble_join_reproduces_plaintext_witness :
    transcriptPlainText
        { videoId := "dQw4w9WgXcQ".data, title := "T".data, author := "A".data,
          channelHandle := none, channelUrl := none, publishDate := none,
          lines := assembleLines
            (⟨" hello ".data, 0, 2⟩ :: ⟨"world".data, 2, 3⟩ :: []) } =
      payloadPlainText (⟨" hello ".data, 0, 2⟩ :: ⟨"world".data, 2, 3⟩ :: []) ∧
    List.Chain' (fun a b : TranscriptLine => a.start ≤ b.start)
      ({ videoId := "dQw4w9WgXcQ".data, title := "T".data, author := "A".data,
          channelHandle := none, channelUrl := none, publishDate := none,
          lines := assembleLines
            (⟨" hello ".data, 0, 2⟩ :: ⟨"world".data, 2, 3⟩ :: []) } :
        TranscriptResponse).lines :=
  assemble_join_reproduces_plaintext
    (⟨" hello ".data, 0, 2⟩ :: ⟨"world".data, 2, 3⟩ :: []) _ rfl
    (by norm_num [List.chain'_cons, List.chain'_singleton])

/-- First defined value in a list of optional values, the shape of an
ordered fallback chain. -/
def firstSome {α : Type} : List (Option α) → Option α
  | [] => none
  | c :: rest =>
    match c with
    | some x => some x
    | none => firstSome rest

theorem extractYt_eq_firstSome (html : List Char) :
    extractYtInitialData html = firstSome ((ytCandidates html).map parsedCandidate) := by
  unfold extractYtInitialData ytCandidates
  rcases h1 : parsedCandidate (ytCandidate1 html) with _ | j1 <;>
    rcases h2 : parsedCandidate (ytCandidate2 html) with _ | j2 <;>
      rcases h3 : parsedCandidate (ytCandidate3 html) with _ | j3 <;>
        rcases h4 : parsedCandidate (ytCandidate4 html) with _ | j4 <;>
          simp [firstSome, h1, h2, h3, h4]

theorem firstSome_eq_some_iff {α : Type} :
    ∀ (l : List (Option α)) (x : α),
      firstSome l = some x ↔
        ∃ i, i < l.length ∧ l.getD i none = some x ∧ ∀ k, k < i → l.getD k none = none := by
  intro l
  induction l with
  | nil => intro x; simp [firstSome]
  | cons c rest ih =>
    intro x
    cases c with
    | some a =>
      constructor
      · intro h
        have ha : some a = some x := by simpa [firstSome] using h
        exact ⟨0, Nat.succ_pos _, by simpa using ha, fun k hk => absurd hk (Nat.not_lt_zero k)⟩
      · rintro ⟨i, hi, hg, hk⟩
        match i with
        | 0 => simpa [firstSome] using hg
        | i' + 1 =>
          have h0 := hk 0 (Nat.succ_pos _)
          simp at h0
    | none =>
      constructor
      · intro h
        have h' : firstSome rest = some x := by simpa [firstSome] using h
        obtain ⟨i, hi, hg, hk⟩ := (ih x).mp h'
        refine ⟨i + 1, Nat.succ_lt_succ hi, by simpa using hg, ?_⟩
        intro k hk'
        match k with
        | 0 => simp
        | k' + 1 => simpa using hk k' (Nat.lt_of_succ_lt_succ hk')
      · rintro ⟨i, hi, hg, hk⟩
        match i with
        | 0 => simp at hg
        | i' + 1 =>
          have h' : firstSome rest = some x := (ih x).mpr
            ⟨i', Nat.lt_of_succ_lt_succ hi, by simpa using hg,
              fun k hk' => by simpa using hk (k + 1) (Nat.succ_lt_succ hk')⟩
          simpa [firstSome] using h'

theorem firstSome_eq_none_iff {α : Type} :
    ∀ (l : List (Option α)), firstSome l = none ↔ ∀ i, i < l.length → l.getD i none = none := by
  intro l
  induction l with
  | nil => simp [firstSome]
  | cons c rest ih =>
    cases c with
    | some a =>
      constructor
      · intro h; simp [firstSome] at h
      · intro h
        have h0 := h 0 (Nat.succ_pos _)
        simp at h0
    | none =>
      constructor
      · intro h i hi
        match i with
        | 0 => simp
        | i' + 1 =>
          have h' : firstSome rest = none := by simpa [firstSome] using h
          simpa using (ih.mp h') i' (Nat.lt_of_succ_lt_succ hi)
      · intro h
        have h' : firstSome rest = none :=
          ih.mpr (fun i hi => by simpa using h (i + 1) (Nat.succ_lt_succ hi))
        simpa [firstSome] using h'

/-- C1: the Embedded-Data Extractor realises the strict fallback order over
the four `ytInitialData` patterns: it returns the parse of the first
candidate (in order 1→2→3→4) that matches and parses as valid JSON — every
earlier pattern either did not match or its match failed to parse — and it
fails exactly when all four candidates fail to match-and-parse. -/
theorem ytInitialData_strict_fallback_order (html : List Char) (j : Json) :
    (extractYtInitialData html = some j ↔
      ∃ i, i < 4 ∧ parsedCandidate ((ytCandidates html).getD i none) = some j ∧
        ∀ k, k < i → parsedCandidate ((ytCandidates html).getD k none) = none) ∧
    (extractYtInitialData html = none ↔
      ∀ i, i < 4 → parsedCandidate ((ytCandidates html).getD i none) = none) := by
  have hmap : ∀ i, i < 4 → ((ytCandidates html).map parsedCandidate).getD i none =
      parsedCandidate ((ytCandidates html).getD i none) := by
    intro i hi
    interval_cases i <;> rfl
  have hlen : ((ytCandidates html).map parsedCandidate).length = 4 := rfl
  constructor
  · rw [extractYt_eq_firstSome, firstSome_eq_some_iff]
    constructor
    · rintro ⟨i, hi, hg, hk⟩
      rw [hlen] at hi
      refine ⟨i, hi, ?_, ?_⟩
      · rw [← hmap i hi]; exact hg
      · intro k hk'
        rw [← hmap k (lt_trans hk' hi)]
        exact hk k hk'
    · rintro ⟨i, hi, hg, hk⟩
      refine ⟨i, by rw [hlen]; exact hi, ?_, ?_⟩
      · rw [hmap i hi]; exact hg
      · intro k hk'
        rw [hmap k (lt_trans hk' hi)]
        exact hk k hk'
  · rw [extractYt_eq_firstSome, firstSome_eq_none_iff]
    constructor
    · intro h i hi
      rw [← hmap i hi]
      exact h i (by rw [hlen]; exact hi)
    · intro h i hi
      rw [hlen] at hi
      rw [hmap i hi]
      exact h i hi

/-- C2: when the fetched page matches none of the four `ytInitialData`
patterns as valid JSON, `fetchTranscript` does not propagate the failure:
it resolves with the Metadata Extractor's response and an empty transcript. -/
theorem fetch_resolves_without_embedded_data (env : HttpEnv) (url html vid : List Char)
    (hurl : extractVideoId url = some vid)
    (hpage : env.page = Except.ok html)
    (hyt : extractYtInitialData html = none) :
    fetchTranscript env url = Except.ok (buildMeta html vid) ∧
    (buildMeta html vid).lines = [] := by
  constructor
  · simp [fetchTranscript, hurl, hpage, hyt]
  · rfl

/-- C2 witness: a concrete page with a title field and no embedded data. -/
theorem fetch_resolves_without_embedded_data_witness :
    fetchTranscript
        ⟨Except.ok ("<html>\"title\":\"Demo\"</html>".data), Except.ok []⟩
        ("https://www.youtube.com/watch?v=dQw4w9WgXcQ".data) =
      Except.ok (buildMeta ("<html>\"title\":\"Demo\"</html>".data) ("dQw4w9WgXcQ".data)) ∧
    (buildMeta ("<html>\"title\":\"Demo\"</html>".data) ("dQw4w9WgXcQ".data)).lines = [] :=
  fetch_resolves_without_embedded_data
    ⟨Except.ok ("<html>\"title\":\"Demo\"</html>".data), Except.ok []⟩
    ("https://www.youtube.com/watch?v=dQw4w9WgXcQ".data)
    ("<html>\"title\":\"Demo\"</html>".data) ("dQw4w9WgXcQ".data) rfl rfl rfl

/-- C5: when the embedded data is present but its caption-track list is
empty or absent, `fetchTranscript` resolves with the populated metadata and
an empty line sequence instead of rejecting, so callers can tell "no
transcript available" from call failure. -/
theorem fetch_resolves_empty_caption_tracks (env : HttpEnv) (url html vid : List Char)
    (d : Json)
    (hurl : extractVideoId url = some vid)
    (hpage : env.page = Except.ok html)
    (hyt : extractYtInitialData html = some d)
    (htr : captionTracksOf d = []) :
    fetchTranscript env url = Except.ok (buildMeta html vid) ∧
    (buildMeta html vid).lines = [] := by
  constructor
  · simp [fetchTranscript, hurl, hpage, hyt, htr]
  · rfl

/-- C5 witness: a concrete page whose embedded data carries no caption
tracks. -/
theorem fetch_resolves_empty_caption_tracks_witness :
    fetchTranscript
        ⟨Except.ok ("var ytInitialData = \x7b\"captions\":4\x7d;".data), Except.ok []⟩
        ("https://www.youtube.com/watch?v=dQw4w9WgXcQ".data) =
      Except.ok (buildMeta ("var ytInitialData = \x7b\"captions\":4\x7d;".data)
        ("dQw4w9WgXcQ".data)) ∧
    (buildMeta ("var ytInitialData = \x7b\"captions\":4\x7d;".data)
      ("dQw4w9WgXcQ".data)).lines = [] :=
  fetch_resolves_empty_caption_tracks
    ⟨Except.ok ("var ytInitialData = \x7b\"captions\":4\x7d;".data), Except.ok []⟩
    ("https://www.youtube.com/watch?v=dQw4w9WgXcQ".data)
    ("var ytInitialData = \x7b\"captions\":4\x7d;".data) ("dQw4w9WgXcQ".data)
    (Json.obj (("captions".data, Json.number ('4' :: [])) :: [])) rfl rfl rfl rfl

end YtSummarizer
